import Mathlib

set_option maxHeartbeats 1000000

/-!
Verification of the Breed_sense mock-classification and analytics-retention engine
(`backend/server.py`): the deterministic seed hasher, the upload gate, the
prediction service with retention pruning, the recent-predictions reader and the
analytics aggregator, shallowly embedded as executable Lean definitions.
-/

namespace BreedSense

/-- BREEDS from `server.py`: the fixed ordered label list. -/
def BREEDS : List String := ["Jersey", "Holstein", "Gir", "Sahiwal", "Tharparkar"]

/-- ALLOWED_CT from `server.py` (a Python set; modelled as a list, membership only). -/
def ALLOWED_CT : List String := ["image/jpeg", "image/jpg", "image/png", "image/webp"]

/-- ALLOWED_EXT from `server.py`. -/
def ALLOWED_EXT : List String := [".jpg", ".jpeg", ".png", ".webp"]

/-- COW_KEYWORDS from `server.py`. -/
def COW_KEYWORDS : List String :=
  ["cow", "cattle", "bull", "calf", "ox", "heifer", "jersey", "holstein", "gir",
   "sahiwal", "tharparkar"]

/-- Accumulator loop of `_mock_breed_choice`: `h = (h * 131 + ord(ch)) % 1000003`
over the seed's characters in order, starting from 0.  `Char.toNat` is the
character's code point, matching Python `ord`. -/
def hashAcc (s : String) : Nat :=
  s.toList.foldl (fun h ch => (h * 131 + ch.toNat) % 1000003) 0

/-- `_mock_breed_choice(seed_text)`: `BREEDS[h % len(BREEDS)]`. -/
def mockBreedChoice (seedText : String) : String :=
  BREEDS.getD (hashAcc seedText % BREEDS.length) ""

/-- ASCII case mapping of Python `str.lower` (every constant the gate compares
against is ASCII). -/
def lowerChar (c : Char) : Char :=
  if 'A' ≤ c ∧ c ≤ 'Z' then Char.ofNat (c.toNat + 32) else c

/-- Python `s.lower()` on the character list of a string. -/
def lowerString (s : String) : String :=
  String.mk (s.data.map lowerChar)

/-- Split a character list at '/' occurrences, like Python `s.split('/')`:
the empty list splits to one empty component. -/
def splitSlash (cs : List Char) : List (List Char) :=
  cs.foldr
    (fun c acc =>
      match acc with
      | [] => [[c]]
      | cur :: rest => if c = '/' then [] :: cur :: rest else (c :: cur) :: rest)
    [[]]

/-- `pathlib.PurePosixPath(s).name`: split on slashes, drop empty and "."
components, and take the last component (empty when none remains).  The backend
runs on a POSIX filesystem, so `Path` is `PosixPath`. -/
def pathlibNameChars (s : String) : List Char :=
  (((splitSlash s.data).filter
      (fun p => !(p == [] || p == ['.']))).getLast?).getD []

/-- Character index of the last '.' in a list of characters, if any. -/
def lastDotIdx (cs : List Char) : Option Nat :=
  ((List.range cs.length).filter (fun i => cs.getD i ' ' == '.')).getLast?

/-- `pathlib.PurePath.suffix`: with `name` the final component and `i` the index
of its last dot (Python `str.rfind`), the suffix is `name[i:]` when
`0 < i < len(name) - 1`, else empty (hidden files like ".jpg" and trailing-dot
names have no suffix). -/
def pathlibSuffix (s : String) : String :=
  let name := pathlibNameChars s
  match lastDotIdx name with
  | none => ""
  | some i => if 0 < i ∧ i < name.length - 1 then String.mk (name.drop i) else ""

/-- Python substring containment `pat in s`, over characters. -/
def strContains (s pat : String) : Bool :=
  let cs := s.data
  let ps := pat.data
  (List.range (cs.length + 1)).any (fun i => (cs.drop i).take ps.length == ps)

/-- `_looks_like_cow(filename, content_type)` from `server.py`:
reject unless the content type is truthy and (lowercased) in ALLOWED_CT; if the
filename is truthy, reject when `Path(filename).suffix.lower()` is not in
ALLOWED_EXT, accept when some keyword occurs in the lowercased filename; in every
remaining case (no truthy filename, or no keyword) reject. -/
def looksLikeCow (filename contentType : Option String) : Bool :=
  match contentType with
  | none => false
  | some ct =>
    if ct = "" ∨ lowerString ct ∉ ALLOWED_CT then false
    else
      match filename with
      | none => false
      | some f =>
        if f = "" then false
        else if lowerString (pathlibSuffix f) ∉ ALLOWED_EXT then false
        else COW_KEYWORDS.any (fun kw => strContains (lowerString f) kw)

/-- The `Prediction` model from `server.py`: id (a fresh `uuid4`, modelled as an
abstract `Nat` token), optional filename, optional content type, breed and the
creation timestamp (an ISO-8601 UTC string in Mongo; since equal-length ISO
strings compare lexicographically exactly as instants do, modelled as `Nat`). -/
structure Prediction where
  id : Nat
  filename : Option String
  contentType : Option String
  breed : String
  timestamp : Nat
deriving DecidableEq

/-- Ascending-timestamp comparison used by the pruning query `sort("timestamp", 1)`. -/
def tsLeAsc (a b : Prediction) : Prop := a.timestamp ≤ b.timestamp

/-- Descending-timestamp comparison used by the reader query `sort("timestamp", -1)`. -/
def tsLeDesc (a b : Prediction) : Prop := b.timestamp ≤ a.timestamp

instance : DecidableRel tsLeAsc := fun a b => Nat.decLe a.timestamp b.timestamp

instance : DecidableRel tsLeDesc := fun a b => Nat.decLe b.timestamp a.timestamp

instance : IsTotal Prediction tsLeDesc :=
  ⟨fun a b => (Nat.le_total a.timestamp b.timestamp).symm⟩

instance : IsTrans Prediction tsLeDesc :=
  ⟨fun _ _ _ hab hbc => Nat.le_trans hbc hab⟩

/-- Mongo `sort("timestamp", 1)` over the stored predictions (a stable sort;
Mongo leaves the order of equal timestamps unspecified, as does the spec). -/
def sortByTsAsc (store : List Prediction) : List Prediction :=
  List.insertionSort tsLeAsc store

/-- Mongo `sort("timestamp", -1)` over the stored predictions. -/
def sortByTsDesc (store : List Prediction) : List Prediction :=
  List.insertionSort tsLeDesc store

/-- The `if to_delete:`-guarded batch deletion of the pruning block:
`delete_many` with the id set `to_delete`; the store keeps every record whose id
is not in the set, in order. -/
def deleteByIds (toDelete : List Nat) (store : List Prediction) : List Prediction :=
  if toDelete = [] then store
  else store.filter (fun r => decide (r.id ∉ toDelete))

/-- The retention pruning block of `predict_cattle_breed`: count the documents;
if the total exceeds the bound (20 at the call site), query the
`total - bound` oldest ids in ascending timestamp order and delete that id set
in one `delete_many` batch. -/
def prunePredictions (bound : Nat) (store : List Prediction) : List Prediction :=
  if bound < store.length then
    deleteByIds (((sortByTsAsc store).take (store.length - bound)).map (fun r => r.id))
      store
  else store

/-- Seed computation in `predict_cattle_breed`: `seed = file.filename or "default"`
(Python `or` falls through on `None` and on the empty string). -/
def seedOfFilename (filename : Option String) : String :=
  match filename with
  | some f => if f = "" then "default" else f
  | none => "default"

/-- HTTP outcome of a `/predict` call: `200` with the breed, or an
`HTTPException(status, detail)`. -/
inductive Resp where
  | ok (breed : String)
  | err (status : Nat) (detail : String)
deriving DecidableEq

/-- The `Prediction(filename=..., content_type=..., breed=predicted)` object that
`predict_cattle_breed` persists, with a fresh id (`newId` models `uuid4()`) and
the creation instant (`now` models `datetime.now(utc)`). -/
def mkPredRecord (filename : Option String) (ct : String) (newId now : Nat) :
    Prediction :=
  { id := newId, filename := filename, contentType := some ct,
    breed := mockBreedChoice (seedOfFilename filename), timestamp := now }

/-- `predict_cattle_breed` from `server.py`.  Checks `content_type is None`, runs
the gate on `file.filename or ""`, derives the label from the seed, appends one
record, then best-effort prunes to the last 20 and unlinks the scratch file.
`pruneFails` (resp. `cleanupFails`) models an exception raised inside the
corresponding `try` block before it takes effect; both blocks end in
`except Exception: pass`, which swallows the exception and emits no log line.
Result: the HTTP response, the store after the call, and the log lines the call
produced. -/
def predictCattleBreed (pruneFails cleanupFails : Bool)
    (filename contentType : Option String) (newId now : Nat)
    (store : List Prediction) : Resp × List Prediction × List String :=
  match contentType with
  | none => (Resp.err 400 "Please upload an image file", store, [])
  | some ct =>
    if looksLikeCow (some (filename.getD "")) (some ct) = false then
      (Resp.err 400 "Uploaded image does not appear to be a cow (mock heuristic)",
        store, [])
    else
      let predicted := mockBreedChoice (seedOfFilename filename)
      let store1 := store ++ [mkPredRecord filename ct newId now]
      let store2 := if pruneFails then store1 else prunePredictions 20 store1
      let _ := cleanupFails
      (Resp.ok predicted, store2, [])

/-- `get_recent_predictions` from `server.py`: clamp the limit to `[1, 50]` via
`max(1, min(50, limit))` and return that many newest-first records; purely a
read, the store is untouched. -/
def getRecentPredictions (limit : Int) (store : List Prediction) : List Prediction :=
  (sortByTsDesc store).take (max 1 (min 50 limit)).toNat

/-- `get_recent_predictions` with its default query parameter `limit: int = 20`. -/
def getRecentPredictionsDefault (store : List Prediction) : List Prediction :=
  getRecentPredictions 20 store

/-- Count-descending comparison of the `$sort` stage in `get_analytics_summary`. -/
def cntDescRel (p q : String × Nat) : Prop := q.2 ≤ p.2

instance : DecidableRel cntDescRel := fun p q => Nat.decLe q.2 p.2

instance : IsTotal (String × Nat) cntDescRel :=
  ⟨fun p q => (Nat.le_total p.2 q.2).symm⟩

instance : IsTrans (String × Nat) cntDescRel :=
  ⟨fun _ _ _ hab hbc => Nat.le_trans hbc hab⟩

/-- The `$group` stage of `get_analytics_summary`: one `(breed, count)` pair per
distinct breed value among the stored records (Mongo's group order is
unspecified; the subsequent `$sort` makes the choice irrelevant up to ties). -/
def breedCounts (store : List Prediction) : List (String × Nat) :=
  ((store.map (fun r => r.breed)).dedup).map
    (fun b => (b, (store.map (fun r => r.breed)).count b))

/-- The aggregation pipeline of `get_analytics_summary`: group, `$sort` by count
descending, and `to_list(length=100)` capping the result at 100 groups. -/
def analyticsAgg (store : List Prediction) : List (String × Nat) :=
  (List.insertionSort cntDescRel (breedCounts store)).take 100

/-- `get_analytics_summary`: the `by_breed` association (a Python dict built in
pipeline order), `total = sum(by_breed.values())`, and
`most = max(by_breed, key=by_breed.get)` — over a dict already sorted by count
descending, Python `max` keeps the first maximal key, i.e. the head. -/
def getAnalyticsSummary (store : List Prediction) :
    List (String × Nat) × Nat × Option String :=
  (analyticsAgg store,
    ((analyticsAgg store).map (fun p => p.2)).sum,
    (analyticsAgg store).head?.map (fun p => p.1))

/-- A demo record with id and timestamp `i`, breed "Jersey". -/
def mkDemoRecord (i : Nat) : Prediction :=
  { id := i, filename := none, contentType := none, breed := "Jersey", timestamp := i }

/-- Twenty demo records: a store already at the retention bound. -/
def demoStore20 : List Prediction := (List.range 20).map mkDemoRecord

/-- Twenty-one demo records: a store one past the retention bound. -/
def demoStore21 : List Prediction := (List.range 21).map mkDemoRecord

/-- Insert `n` records sequentially, pruning with bound 20 after each insert,
starting from an empty store — the spec's 25-insert scenario. -/
def insertPruneRun (n : Nat) : List Prediction :=
  (List.range n).foldl (fun st i => prunePredictions 20 (st ++ [mkDemoRecord i])) []

/-- Three records with breeds Jersey, Jersey, Gir — the spec's analytics example. -/
def demoStore3 : List Prediction :=
  [{ id := 0, filename := none, contentType := none, breed := "Jersey", timestamp := 0 },
   { id := 1, filename := none, contentType := none, breed := "Jersey", timestamp := 1 },
   { id := 2, filename := none, contentType := none, breed := "Gir", timestamp := 2 }]

/-- Characterisation of the upload gate: it accepts exactly when the content type
is a non-empty allowed MIME type (case-insensitively), the filename is a
non-empty string whose pathlib suffix is (case-insensitively) an allowed
extension, and some cattle keyword occurs in the lowercased filename. -/
theorem looksLikeCow_eq_true_iff (filename contentType : Option String) :
    looksLikeCow filename contentType = true ↔
      (∃ ct, contentType = some ct ∧ ct ≠ "" ∧ lowerString ct ∈ ALLOWED_CT) ∧
      (∃ f, filename = some f ∧ f ≠ "" ∧
        lowerString (pathlibSuffix f) ∈ ALLOWED_EXT ∧
        COW_KEYWORDS.any (fun kw => strContains (lowerString f) kw) = true) := by
  cases contentType with
  | none =>
    constructor
    · intro h; exact absurd h (by simp [looksLikeCow])
    · rintro ⟨⟨c, hc, -⟩, -⟩; exact Option.noConfusion hc
  | some ct =>
    cases filename with
    | none =>
      constructor
      · intro h
        unfold looksLikeCow at h
        split at h <;> simp_all
      · rintro ⟨-, ⟨f, hf, -⟩⟩; exact Option.noConfusion hf
    | some f =>
      show (if ct = "" ∨ lowerString ct ∉ ALLOWED_CT then false
        else if f = "" then false
        else if lowerString (pathlibSuffix f) ∉ ALLOWED_EXT then false
        else COW_KEYWORDS.any (fun kw => strContains (lowerString f) kw)) = true ↔ _
      by_cases h1 : ct = "" ∨ lowerString ct ∉ ALLOWED_CT
      · rw [if_pos h1]
        constructor
        · intro h; exact Bool.noConfusion h
        · rintro ⟨⟨c, hc, hne, hmem⟩, -⟩
          obtain rfl : ct = c := Option.some.inj hc
          rcases h1 with h1 | h1
          · exact absurd h1 hne
          · exact absurd hmem h1
      · rw [if_neg h1]
        push_neg at h1
        obtain ⟨hct, hmem⟩ := h1
        by_cases h2 : f = ""
        · rw [if_pos h2]
          constructor
          · intro h; exact Bool.noConfusion h
          · rintro ⟨-, ⟨g, hg, hgne, -⟩⟩
            obtain rfl : f = g := Option.some.inj hg
            exact absurd h2 hgne
        · rw [if_neg h2]
          by_cases h3 : lowerString (pathlibSuffix f) ∉ ALLOWED_EXT
          · rw [if_pos h3]
            constructor
            · intro h; exact Bool.noConfusion h
            · rintro ⟨-, ⟨g, hg, -, hext, -⟩⟩
              obtain rfl : f = g := Option.some.inj hg
              exact absurd hext h3
          · rw [if_neg h3]
            push_neg at h3
            constructor
            · intro h
              exact ⟨⟨ct, rfl, hct, hmem⟩, ⟨f, rfl, h2, h3, h⟩⟩
            · rintro ⟨-, ⟨g, hg, -, -, hkw⟩⟩
              obtain rfl : f = g := Option.some.inj hg
              exact hkw

/-- The upload-gate acceptance rule exactly as the claim words it: content type
present and case-insensitively in the allowed set, filename present, the
substring after the LAST dot of the whole filename an allowed extension
(case-insensitively), and a cattle keyword in the lowercased filename. -/
def claimGateAccept (filename contentType : Option String) : Bool :=
  (match contentType with
   | none => false
   | some ct => decide (lowerString ct ∈ ALLOWED_CT)) &&
  (match filename with
   | none => false
   | some f =>
     (match lastDotIdx f.data with
      | none => false
      | some i =>
        decide (lowerString (String.mk ('.' :: f.data.drop (i + 1))) ∈ ALLOWED_EXT)) &&
     COW_KEYWORDS.any (fun kw => strContains (lowerString f) kw))

/-- C2 counterexample: the filename "cow/.jpg" with content type "image/png"
satisfies every rule of the claim — the substring after the last dot is "jpg",
the keyword "cow" occurs, the content type is allowed — yet the code rejects it,
because `Path("cow/.jpg").suffix` is empty: the final path component ".jpg" has
its only dot in leading position. -/
theorem c2_counterexample :
    claimGateAccept (some "cow/.jpg") (some "image/png") = true ∧
    looksLikeCow (some "cow/.jpg") (some "image/png") = false := by decide

/-- C2 (amended): the gate accepts iff the content type is present, non-empty and
case-insensitively allowed, the filename is present and non-empty, the
filename's extension — computed as `pathlib` computes it, i.e. the suffix of the
final '/'-component, empty when that component's last dot is leading or
trailing — is case-insensitively allowed, and the lowercased filename contains a
cattle keyword; in particular no input without a filename is ever accepted. -/
theorem c2_amended_gate (filename contentType : Option String) :
    looksLikeCow filename contentType = true ↔
      (∃ ct, contentType = some ct ∧ ct ≠ "" ∧ lowerString ct ∈ ALLOWED_CT) ∧
      (∃ f, filename = some f ∧ f ≠ "" ∧
        lowerString (pathlibSuffix f) ∈ ALLOWED_EXT ∧
        COW_KEYWORDS.any (fun kw => strContains (lowerString f) kw) = true) :=
  looksLikeCow_eq_true_iff filename contentType

/-- C1: the breed selector folds over the seed's characters in order with
accumulator update `h = (h * 131 + code_point) % 1000003` starting at 0, indexes
BREEDS by `h % |BREEDS|`, that index is always below `|BREEDS|`, and the empty
seed yields index 0, i.e. the first label "Jersey". -/
theorem c1_seed_hasher (seed : String) :
    (hashAcc seed =
        seed.toList.foldl (fun h ch => (h * 131 + ch.toNat) % 1000003) 0) ∧
    mockBreedChoice seed = BREEDS.getD (hashAcc seed % BREEDS.length) "" ∧
    hashAcc seed % BREEDS.length < BREEDS.length ∧
    hashAcc "" = 0 ∧ mockBreedChoice "" = "Jersey" := by
  refine ⟨rfl, rfl, Nat.mod_lt _ (by decide), rfl, rfl⟩

/-- C9: the three concrete upload-gate input/output pairs from the spec:
"jersey_cow.jpg" with "image/jpeg" is accepted; "cow.bmp" with "image/png" is
rejected (extension); a missing filename with "image/png" is rejected. -/
theorem c9_gate_examples :
    looksLikeCow (some "jersey_cow.jpg") (some "image/jpeg") = true ∧
    looksLikeCow (some "cow.bmp") (some "image/png") = false ∧
    looksLikeCow none (some "image/png") = false := by decide

/-- Pruning is a no-op on a store within the bound. -/
theorem prunePredictions_of_le (bound : Nat) (store : List Prediction)
    (h : store.length ≤ bound) : prunePredictions bound store = store := by
  unfold prunePredictions
  rw [if_neg (by omega)]

/-- C10: whenever the gate passes on a prediction request, the uploaded filename
is a non-empty string, so the fallback literal in `seed = filename or "default"`
is unreachable: the seed handed to the breed selector is exactly the uploaded
filename. -/
theorem c10_seed_is_filename (filename contentType : Option String)
    (h : looksLikeCow (some (filename.getD "")) contentType = true) :
    ∃ f, filename = some f ∧ f ≠ "" ∧ seedOfFilename filename = f := by
  obtain ⟨-, ⟨g, hg, hne, -⟩⟩ := (looksLikeCow_eq_true_iff _ _).mp h
  obtain rfl : filename.getD "" = g := Option.some.inj hg
  cases filename with
  | none => exact absurd rfl hne
  | some f => exact ⟨f, rfl, hne, if_neg hne⟩

/-- C10 witness: the gate passes at filename "jersey_cow.jpg" with content type
"image/jpeg", and there the seed equals the filename. -/
theorem c10_witness :
    ∃ f, (some "jersey_cow.jpg" : Option String) = some f ∧ f ≠ "" ∧
      seedOfFilename (some "jersey_cow.jpg") = f :=
  c10_seed_is_filename (some "jersey_cow.jpg") (some "image/jpeg") (by decide)

/-- C6: a `/predict` call whose content type is missing or that the upload gate
rejects fails with a 400 response carrying one of the code's two descriptive
reasons, and leaves the store untouched: no record is persisted. -/
theorem c6_rejection_no_persist (pruneFails cleanupFails : Bool)
    (filename contentType : Option String) (newId now : Nat)
    (store : List Prediction)
    (h : contentType = none ∨
      looksLikeCow (some (filename.getD "")) contentType = false) :
    ((predictCattleBreed pruneFails cleanupFails filename contentType
          newId now store).1 = Resp.err 400 "Please upload an image file" ∨
      (predictCattleBreed pruneFails cleanupFails filename contentType
          newId now store).1 =
        Resp.err 400 "Uploaded image does not appear to be a cow (mock heuristic)") ∧
    (predictCattleBreed pruneFails cleanupFails filename contentType
        newId now store).2.1 = store := by
  cases contentType with
  | none => exact ⟨Or.inl rfl, rfl⟩
  | some ct =>
    rcases h with h | h
    · exact Option.noConfusion h
    · have hred : predictCattleBreed pruneFails cleanupFails filename (some ct)
          newId now store =
          (Resp.err 400 "Uploaded image does not appear to be a cow (mock heuristic)",
            store, []) := if_pos h
      rw [hred]
      exact ⟨Or.inr rfl, rfl⟩

/-- C6 witness: the rejected upload "cow.bmp" with content type "image/png"
yields a 400 response and an unchanged (empty) store. -/
theorem c6_witness :
    ((predictCattleBreed false false (some "cow.bmp") (some "image/png")
          9 9 []).1 = Resp.err 400 "Please upload an image file" ∨
      (predictCattleBreed false false (some "cow.bmp") (some "image/png")
          9 9 []).1 =
        Resp.err 400 "Uploaded image does not appear to be a cow (mock heuristic)") ∧
    (predictCattleBreed false false (some "cow.bmp") (some "image/png")
        9 9 []).2.1 = [] :=
  c6_rejection_no_persist false false (some "cow.bmp") (some "image/png") 9 9 []
    (Or.inr (by decide))

/-- C7 counterexample: with a pruning failure and a cleanup failure injected into
a gate-passing call, the code still answers 200 with the breed — the failures
are not propagated and the response is unchanged — but the log output is empty:
the handlers read `except Exception: pass` and record nothing, contradicting
"the failure is always logged". -/
theorem c7_counterexample :
    (predictCattleBreed true true (some "jersey_cow.jpg") (some "image/jpeg")
        55 55 demoStore20).2.2 = [] ∧
    (predictCattleBreed true true (some "jersey_cow.jpg") (some "image/jpeg")
        55 55 demoStore20).1 = Resp.ok (mockBreedChoice "jersey_cow.jpg") := by
  decide

/-- C7 (amended): failures inside the retention-pruning or scratch-cleanup steps
are never propagated and never change the response already computed — the call
answers exactly as the fault-free call does — but they are swallowed silently,
not logged: the call emits no log line. -/
theorem c7_amended_faults_swallowed (pruneFails cleanupFails : Bool)
    (filename contentType : Option String) (newId now : Nat)
    (store : List Prediction) :
    (predictCattleBreed pruneFails cleanupFails filename contentType
        newId now store).1 =
      (predictCattleBreed false false filename contentType newId now store).1 ∧
    (predictCattleBreed pruneFails cleanupFails filename contentType
        newId now store).2.2 = [] := by
  cases contentType with
  | none => exact ⟨rfl, rfl⟩
  | some ct =>
    by_cases h : looksLikeCow (some (filename.getD "")) (some ct) = false
    · simp [predictCattleBreed, h]
    · simp [predictCattleBreed, h]

/-- C5 counterexample: the gate-passing upload "holstein1.png" with content type
"image/png" against a store already holding 20 records does not increase the
stored-record count: the insert is immediately followed by the prune back to
the bound, so the count stays 20 instead of becoming 21. -/
theorem c5_counterexample :
    demoStore20.length = 20 ∧
    looksLikeCow (some "holstein1.png") (some "image/png") = true ∧
    ((predictCattleBreed false false (some "holstein1.png") (some "image/png")
        100 100 demoStore20).2.1).length = 20 := by decide

/-- C5 (amended): a gate-passing upload returns the breed selected by the seed
hash of the filename and persists exactly one new record carrying that breed;
when the prior count is below the retention bound 20, the stored-record count
increases by exactly 1 (at the bound, the post-insert prune instead evicts the
oldest record and the count is unchanged). -/
theorem c5_amended_predict_success (f ct : String) (newId now : Nat)
    (store : List Prediction)
    (hgate : looksLikeCow (some f) (some ct) = true)
    (hlen : store.length < 20) :
    predictCattleBreed false false (some f) (some ct) newId now store =
      (Resp.ok (mockBreedChoice f),
        store ++ [({ id := newId, filename := some f, contentType := some ct,
                     breed := mockBreedChoice f, timestamp := now } : Prediction)],
        []) ∧
    (store ++ [({ id := newId, filename := some f, contentType := some ct,
                  breed := mockBreedChoice f, timestamp := now } : Prediction)]).length
      = store.length + 1 ∧
    mockBreedChoice f = BREEDS.getD (hashAcc f % BREEDS.length) "" := by
  have hne : f ≠ "" := by
    obtain ⟨-, ⟨g, hg, hgne, -⟩⟩ := (looksLikeCow_eq_true_iff _ _).mp hgate
    obtain rfl : f = g := Option.some.inj hg
    exact hgne
  have hseed : seedOfFilename (some f) = f := if_neg hne
  refine ⟨?_, by simp, rfl⟩
  have hcond : ¬ (looksLikeCow (some ((some f : Option String).getD ""))
      (some ct) = false) := by
    simp only [Option.getD_some, hgate]
    simp
  have hstep : predictCattleBreed false false (some f) (some ct) newId now store =
      (Resp.ok (mockBreedChoice (seedOfFilename (some f))),
        prunePredictions 20 (store ++ [mkPredRecord (some f) ct newId now]),
        []) := if_neg hcond
  rw [hstep, prunePredictions_of_le 20 _ (by simp [Nat.succ_le_of_lt hlen])]
  simp only [mkPredRecord, hseed]

/-- C5 witness: the upload "holstein1.png" with content type "image/png" against
an empty store returns the hashed breed and leaves exactly one matching record. -/
theorem c5_witness :
    predictCattleBreed false false (some "holstein1.png") (some "image/png")
        7 3 [] =
      (Resp.ok (mockBreedChoice "holstein1.png"),
        ([{ id := 7, filename := some "holstein1.png",
            contentType := some "image/png",
            breed := mockBreedChoice "holstein1.png", timestamp := 3 }] :
          List Prediction), []) ∧
    (([] : List Prediction) ++
        ([{ id := 7, filename := some "holstein1.png",
            contentType := some "image/png",
            breed := mockBreedChoice "holstein1.png", timestamp := 3 }] :
          List Prediction)).length
      = ([] : List Prediction).length + 1 ∧
    mockBreedChoice "holstein1.png" =
      BREEDS.getD (hashAcc "holstein1.png" % BREEDS.length) "" :=
  c5_amended_predict_success "holstein1.png" "image/png" 7 3 []
    (by decide) (by decide)

/-- A store whose records stand in strictly increasing timestamp order is
unchanged by the ascending sort of the pruning query. -/
theorem sortByTsAsc_of_sorted (store : List Prediction)
    (h : store.Pairwise (fun a b => a.timestamp < b.timestamp)) :
    sortByTsAsc store = store :=
  List.Sorted.insertionSort_eq (h.imp (fun hab => Nat.le_of_lt hab))

/-- Deleting by the ids of the first block of a store whose first-block ids are
disjoint from the second-block ids keeps exactly the second block. -/
theorem filter_not_mem_ids (T D : List Prediction)
    (hdisj : (T.map (fun r => r.id)).Disjoint (D.map (fun r => r.id))) :
    (T ++ D).filter (fun r => decide (r.id ∉ T.map (fun r => r.id))) = D := by
  rw [List.filter_append]
  have h1 : T.filter (fun r => decide (r.id ∉ T.map (fun r => r.id))) = [] := by
    rw [List.filter_eq_nil_iff]
    intro a ha
    simp only [decide_eq_true_eq, not_not]
    exact List.mem_map_of_mem (fun r => r.id) ha
  have h2 : D.filter (fun r => decide (r.id ∉ T.map (fun r => r.id))) = D := by
    rw [List.filter_eq_self]
    intro a ha
    simp only [decide_eq_true_eq]
    intro hmem
    exact hdisj hmem (List.mem_map_of_mem (fun r => r.id) ha)
  rw [h1, h2, List.nil_append]

/-- C3: on a store whose ids are pairwise distinct and whose records stand in
strictly increasing timestamp order (sequential inserts), a prune with bound 20
at a count above 20 deletes exactly the `count - 20` oldest records by ascending
timestamp, as one batch by id set, and no others — the result is the store with
its oldest prefix dropped, holding exactly 20 records — and the scenario of 25
sequential inserts from the empty store, pruning after each, ends with at most
20 records. -/
theorem c3_retention_pruner (store : List Prediction)
    (hids : (store.map (fun r => r.id)).Nodup)
    (hts : store.Pairwise (fun a b => a.timestamp < b.timestamp))
    (hlen : 20 < store.length) :
    prunePredictions 20 store = store.drop (store.length - 20) ∧
    (prunePredictions 20 store).length = 20 ∧
    (insertPruneRun 25).length ≤ 20 := by
  have hsort : sortByTsAsc store = store := sortByTsAsc_of_sorted store hts
  have hmain : prunePredictions 20 store = store.drop (store.length - 20) := by
    unfold prunePredictions
    rw [if_pos hlen, hsort]
    unfold deleteByIds
    have hlenk : (store.take (store.length - 20)).length = store.length - 20 := by
      rw [List.length_take]
      omega
    have hne : ((store.take (store.length - 20)).map (fun r => r.id)) ≠ [] := by
      intro hnil
      have hl := congrArg List.length hnil
      rw [List.length_map, hlenk] at hl
      simp only [List.length_nil] at hl
      omega
    rw [if_neg hne]
    have hsplit : store.map (fun r => r.id) =
        (store.take (store.length - 20)).map (fun r => r.id) ++
          (store.drop (store.length - 20)).map (fun r => r.id) := by
      rw [← List.map_append, List.take_append_drop]
    rw [hsplit] at hids
    obtain ⟨-, -, hdisj⟩ := List.nodup_append.mp hids
    have hfil := filter_not_mem_ids (store.take (store.length - 20))
      (store.drop (store.length - 20)) hdisj
    rw [List.take_append_drop] at hfil
    exact hfil
  refine ⟨hmain, ?_, by decide⟩
  rw [hmain, List.length_drop]
  omega

/-- C3 witness: a store of 21 sequentially inserted records is pruned to exactly
its 20 newest, and the 25-insert scenario ends at the bound. -/
theorem c3_witness :
    prunePredictions 20 demoStore21 = demoStore21.drop (demoStore21.length - 20) ∧
    (prunePredictions 20 demoStore21).length = 20 ∧
    (insertPruneRun 25).length ≤ 20 :=
  c3_retention_pruner demoStore21 (by decide) (by decide) (by decide)

/-- Two limits clamped to the same value read the same records. -/
theorem getRecentPredictions_congr (a b : Int) (store : List Prediction)
    (h : (max 1 (min 50 a)).toNat = (max 1 (min 50 b)).toNat) :
    getRecentPredictions a store = getRecentPredictions b store := by
  unfold getRecentPredictions
  rw [h]

/-- C8: the recent-predictions reader behaves as its limit clamped to `[1, 50]`
(default 20), returns at most that many records, newest first by descending
timestamp, drawn from the store without modifying it (a pure read: its result is
a sublist of a permutation of the store and the store is not an output); limit
0 or negative reads as limit 1, and limit 1000 reads as limit 50. -/
theorem c8_recent_reader (limit : Int) (store : List Prediction) :
    getRecentPredictions limit store
      = getRecentPredictions (max 1 (min 50 limit)) store ∧
    1 ≤ max 1 (min 50 limit) ∧ max 1 (min 50 limit) ≤ 50 ∧
    getRecentPredictionsDefault store = getRecentPredictions 20 store ∧
    (getRecentPredictions limit store).length ≤ (max 1 (min 50 limit)).toNat ∧
    (getRecentPredictions limit store).length ≤ 50 ∧
    (getRecentPredictions limit store).Pairwise tsLeDesc ∧
    (getRecentPredictions limit store).Sublist (sortByTsDesc store) ∧
    (sortByTsDesc store).Perm store ∧
    getRecentPredictions 0 store = getRecentPredictions 1 store ∧
    getRecentPredictions (-7) store = getRecentPredictions 1 store ∧
    getRecentPredictions 1000 store = getRecentPredictions 50 store := by
  have hlen : (getRecentPredictions limit store).length
      ≤ (max 1 (min 50 limit)).toNat := by
    unfold getRecentPredictions
    rw [List.length_take]
    exact Nat.min_le_left _ _
  refine ⟨getRecentPredictions_congr limit (max 1 (min 50 limit)) store (by omega),
    by omega, by omega, rfl, hlen,
    le_trans hlen (by omega), ?_, List.take_sublist _ _,
    List.perm_insertionSort tsLeDesc store,
    getRecentPredictions_congr 0 1 store (by decide),
    getRecentPredictions_congr (-7) 1 store (by decide),
    getRecentPredictions_congr 1000 50 store (by decide)⟩
  exact List.Pairwise.sublist (List.take_sublist _ _)
    (List.sorted_insertionSort tsLeDesc store)

/-- C4: over any current record set with at most 100 distinct breed values (the
system only ever stores the 5 breeds of BREEDS, so the `to_list(length=100)` cap
never truncates), the summary's total equals both the sum of the listed counts
and the number of records; every listed pair carries the exact occurrence count
of its breed; the listed breeds are exactly the distinct breeds of the records;
the empty record set yields `([], 0, none)`; a non-empty record set yields
`most_common = some b` for a breed `b` of maximum count; and over records with
breeds [Jersey, Jersey, Gir] the summary is (Jersey 2, Gir 1), total 3,
most-common Jersey. -/
theorem c4_analytics_summary (store : List Prediction)
    (hsmall : ((store.map (fun r => r.breed)).dedup).length ≤ 100) :
    (getAnalyticsSummary store).2.1
        = (((getAnalyticsSummary store).1).map (fun p => p.2)).sum ∧
    (getAnalyticsSummary store).2.1 = store.length ∧
    (∀ p ∈ (getAnalyticsSummary store).1,
        p.2 = (store.map (fun r => r.breed)).count p.1) ∧
    (((getAnalyticsSummary store).1).map (fun p => p.1)).Perm
      ((store.map (fun r => r.breed)).dedup) ∧
    (store = [] → getAnalyticsSummary store = ([], 0, none)) ∧
    (store ≠ [] → ∃ b, (getAnalyticsSummary store).2.2 = some b ∧
        ∀ b', (store.map (fun r => r.breed)).count b'
          ≤ (store.map (fun r => r.breed)).count b) ∧
    getAnalyticsSummary demoStore3 =
      ([("Jersey", 2), ("Gir", 1)], 3, some "Jersey") := by
  have hagg : analyticsAgg store = List.insertionSort cntDescRel (breedCounts store) := by
    unfold analyticsAgg
    apply List.take_of_length_le
    rw [List.length_insertionSort]
    unfold breedCounts
    rw [List.length_map]
    exact hsmall
  have hperm : (analyticsAgg store).Perm (breedCounts store) := by
    rw [hagg]
    exact List.perm_insertionSort cntDescRel (breedCounts store)
  have hcount : ∀ p ∈ breedCounts store,
      p.2 = (store.map (fun r => r.breed)).count p.1 := by
    intro p hp
    unfold breedCounts at hp
    obtain ⟨b, -, rfl⟩ := List.mem_map.mp hp
    rfl
  have hsum : ((breedCounts store).map (fun p => p.2)).sum = store.length := by
    unfold breedCounts
    rw [List.map_map]
    have hco : ((fun p : String × Nat => p.2) ∘
        (fun b => (b, (store.map (fun r => r.breed)).count b)))
        = fun b => (store.map (fun r => r.breed)).count b := rfl
    rw [hco, List.sum_map_count_dedup_eq_length, List.length_map]
  refine ⟨rfl, ?_, ?_, ?_, ?_, ?_, by decide⟩
  · show ((analyticsAgg store).map (fun p => p.2)).sum = store.length
    rw [(hperm.map (fun p => p.2)).sum_eq, hsum]
  · intro p hp
    exact hcount p (hperm.mem_iff.mp hp)
  · show ((analyticsAgg store).map (fun p => p.1)).Perm
      ((store.map (fun r => r.breed)).dedup)
    have hkeys : (breedCounts store).map (fun p => p.1)
        = (store.map (fun r => r.breed)).dedup := by
      unfold breedCounts
      rw [List.map_map]
      exact List.map_id _
    rw [← hkeys]
    exact hperm.map (fun p => p.1)
  · intro h
    subst h
    rfl
  · intro hne
    have hbl : store.map (fun r => r.breed) ≠ [] := by
      intro h
      exact hne (List.map_eq_nil_iff.mp h)
    have hbc : breedCounts store ≠ [] := by
      unfold breedCounts
      intro h
      exact hbl ((List.dedup_eq_nil _).mp (List.map_eq_nil_iff.mp h))
    have hS : analyticsAgg store ≠ [] := by
      intro h
      rw [h] at hperm
      exact hbc hperm.nil_eq.symm
    cases hA : analyticsAgg store with
    | nil => exact absurd hA hS
    | cons hd tl =>
      refine ⟨hd.1, ?_, ?_⟩
      · show (analyticsAgg store).head?.map (fun p => p.1) = some hd.1
        rw [hA]
        rfl
      · intro b'
        have hhd : hd.2 = (store.map (fun r => r.breed)).count hd.1 :=
          hcount hd (hperm.mem_iff.mp (hA ▸ List.mem_cons_self hd tl))
        have hsorted : (analyticsAgg store).Pairwise cntDescRel := by
          rw [hagg]
          exact List.sorted_insertionSort cntDescRel (breedCounts store)
        rw [hA] at hsorted
        have hmax : ∀ q ∈ tl, q.2 ≤ hd.2 := (List.pairwise_cons.mp hsorted).1
        by_cases hb' : b' ∈ store.map (fun r => r.breed)
        · have hmem : (b', (store.map (fun r => r.breed)).count b')
              ∈ breedCounts store := by
            unfold breedCounts
            exact List.mem_map_of_mem _ (List.mem_dedup.mpr hb')
          have hin : (b', (store.map (fun r => r.breed)).count b')
              ∈ analyticsAgg store := hperm.mem_iff.mpr hmem
          rw [hA] at hin
          rcases List.mem_cons.mp hin with heq | hin
          · rw [← hhd, ← heq]
          · exact hhd ▸ hmax _ hin
        · rw [List.count_eq_zero.mpr hb']
          exact Nat.zero_le _

/-- C4 witness: at the Jersey-Jersey-Gir record set the hypotheses hold and the
summary's total equals the record count, 3. -/
theorem c4_witness :
    (getAnalyticsSummary demoStore3).2.1 = demoStore3.length :=
  (c4_analytics_summary demoStore3 (by decide)).2.1

end BreedSense
